import Mathlib

/-!
Shallow embedding of the clover-poller repository.

The repository contains several iterations of the same poller script:
  - `VariantA` embeds the first poller in `poller.js` (id-keyed merge,
    marks only new line-items as seen, broadcasts unconditionally);
  - `VariantB` embeds the second poller in `poller.js` (id-keyed merge,
    ignore-list filter before persistence, broadcast gated on new items);
  - `VariantC` embeds the third poller in `poller.js` (name-keyed merge,
    marks all current line-items as seen, broadcast gated on new items);
  - `Part001` embeds the poller in `src/unnamed/part_001` (order-level
    dedup via `seenOrders`, name-keyed merge with an empty-fresh guard);
the name-keyed merge with the empty-fresh guard also appears in
`src/unnamed/part_000` (`test-poller.js`).

JavaScript `Map`s are modelled as insertion-ordered association lists
(`jsMapSet` replaces the value in place for an existing key and appends
otherwise, exactly as `Map.prototype.set` does), JavaScript `Set`s as
insertion-ordered duplicate-free lists, and the MongoDB collection as a
list of documents keyed by `orderId`, with `updateOne .. {upsert: true}`
embedded as `updateOneUpsert` ($set fields versus $setOnInsert fields).
-/

/-- A fetched Clover line-item (after `expand=lineItems.name`). -/
structure LineItem where
  id : String
  name : String
deriving DecidableEq, Repr

/-- An item as persisted by the id-keyed variants: `{ id, name, state }`. -/
structure SavedItem where
  id : String
  name : String
  state : String
deriving DecidableEq, Repr

/-- An item as persisted by the name-keyed variants: `{ name, state }`. -/
structure NamedItem where
  name : String
  state : String
deriving DecidableEq, Repr

/-- A fetched Clover order. Timestamp fields use `0` to encode an absent
field, mirroring how JavaScript `||` treats `undefined` and `0` alike as
falsy in `o.modifiedTime || o.updatedTime || o.createdTime`. -/
structure Order where
  id : String
  title : String
  createdTime : Nat
  modifiedTime : Nat
  updatedTime : Nat
  lineItems : List LineItem
deriving DecidableEq, Repr

/-- Embeds `o.modifiedTime || o.updatedTime || o.createdTime`. -/
def effectiveTime (o : Order) : Nat :=
  if o.modifiedTime ≠ 0 then o.modifiedTime
  else if o.updatedTime ≠ 0 then o.updatedTime
  else o.createdTime

/-- Membership test on a list of strings, as a Boolean (JS `Set.has` /
`Array.includes`). -/
def elemStr (x : String) (l : List String) : Bool :=
  l.any (fun y => y = x)

/-- JS `Set.prototype.add` folded over a list: appends each id not already
present, preserving insertion order. -/
def addAll (s : List String) (ids : List String) : List String :=
  ids.foldl (fun acc i => if elemStr i acc then acc else acc ++ [i]) s

/-- JS `Map.prototype.has`. -/
def jsMapHas (m : List (String × String)) (k : String) : Bool :=
  m.any (fun p => p.1 = k)

/-- JS `Map.prototype.get`, `none` for a missing key. -/
def jsMapGet (m : List (String × String)) (k : String) : Option String :=
  (m.find? (fun p => p.1 = k)).map Prod.snd

/-- JS `Map.prototype.set`: updates the value in place when the key is
present, appends a fresh entry otherwise. -/
def jsMapSet (m : List (String × String)) (k v : String) : List (String × String) :=
  if jsMapHas m k then m.map (fun p => if p.1 = k then (k, v) else p)
  else m ++ [(k, v)]

/-- JS `new Map(pairs)`: `set` folded over the pair list (a later pair for
the same key overwrites the earlier value). -/
def jsMapOfPairs (ps : List (String × String)) : List (String × String) :=
  ps.foldl (fun m p => jsMapSet m p.1 p.2) []

/-- Embeds `v || 'new'` applied to the result of a `Map.get`: a missing key
or a falsy (empty) string yields `"new"`. -/
def orNew (v : Option String) : String :=
  match v with
  | some s => if s = "" then "new" else s
  | none => "new"

/-- The map `new Map(savedItems.map(i => [i.id, i.state]))` of the id-keyed
variants. -/
def idToState (savedItems : List SavedItem) : List (String × String) :=
  jsMapOfPairs (savedItems.map (fun i => (i.id, i.state)))

/-- The id-keyed merge of the first and second pollers in `poller.js`:
`items.map(li => ({id: li.id, name: li.name, state: idToState.get(li.id) || 'new'}))`. -/
def finalItemsById (items : List LineItem) (savedItems : List SavedItem) : List SavedItem :=
  items.map (fun li =>
    { id := li.id, name := li.name, state := orNew (jsMapGet (idToState savedItems) li.id) })

/-- Embeds `items.map(li => li.name).filter(n => typeof n === 'string' && n.length > 0)`
(every modelled name is a string, so only the length test remains). -/
def cloverNamesOf (items : List LineItem) : List String :=
  (items.map LineItem.name).filter (fun n => n.length > 0)

/-- The map `new Map(savedItems.map(i => [i.name, i.state]))` of the
name-keyed variants. -/
def nameToState (savedItems : List NamedItem) : List (String × String) :=
  jsMapOfPairs (savedItems.map (fun i => (i.name, i.state)))

/-- Embeds `cloverNames.forEach(name => { if (!nameToState.has(name)) nameToState.set(name, 'new') })`. -/
def addFreshNames (m : List (String × String)) (names : List String) : List (String × String) :=
  names.foldl (fun acc n => if jsMapHas acc n then acc else jsMapSet acc n "new") m

/-- The name-keyed merge:
`Array.from(nameToState, ([name, state]) => ({name, state}))` after the
fresh names were folded in. -/
def finalItemsByName (names : List String) (savedItems : List NamedItem) : List NamedItem :=
  (addFreshNames (nameToState savedItems) names).map (fun p => { name := p.1, state := p.2 })

/-- The guarded merge of `part_000`/`part_001`:
`cloverNames.length ? Array.from(nameToState, ...) : savedItems`. -/
def finalItemsGuarded (names : List String) (savedItems : List NamedItem) : List NamedItem :=
  if names.length ≠ 0 then finalItemsByName names savedItems else savedItems

/-- A persisted MongoDB document in the `ikds` collection; `α` is the item
shape (`SavedItem` for id-keyed variants, `NamedItem` for name-keyed ones). -/
structure OrderDoc (α : Type) where
  orderId : String
  title : String
  state : String
  items : List α
  createdAt : Nat
  updatedAt : Nat
deriving DecidableEq, Repr

/-- Embeds `col.findOne({orderId: o.id})` over the modelled collection. -/
def docFind {α : Type} (db : List (OrderDoc α)) (oid : String) : Option (OrderDoc α) :=
  db.find? (fun d => d.orderId = oid)

/-- The `$set` half of the upsert: `title`, `items` and `updatedAt` are
written; every other field keeps its stored value. -/
def applySetFields {α : Type} (d : OrderDoc α) (o : Order) (finalItems : List α) : OrderDoc α :=
  { d with title := o.title, items := finalItems, updatedAt := effectiveTime o }

/-- The insert case of the upsert: `$set` fields plus the `$setOnInsert`
fields `orderId`, `state: 'new'` and `createdAt`. -/
def insertDoc {α : Type} (o : Order) (finalItems : List α) : OrderDoc α :=
  { orderId := o.id, title := o.title, state := "new", items := finalItems,
    createdAt := o.createdTime, updatedAt := effectiveTime o }

/-- Embeds `col.updateOne({orderId: o.id}, {$set: ..., $setOnInsert: ...}, {upsert: true})`. -/
def updateOneUpsert {α : Type} (db : List (OrderDoc α)) (o : Order) (finalItems : List α) :
    List (OrderDoc α) :=
  if db.any (fun d => d.orderId = o.id) then
    db.map (fun d => if d.orderId = o.id then applySetFields d o finalItems else d)
  else db ++ [insertDoc o finalItems]

/-- A `pusher.trigger('orders', 'order-updated', {...})` payload of the
line-item-tracking variants; `stateField` is `none` when the JS payload
carries `state: undefined` (an existing document). -/
structure Payload (α : Type) where
  orderId : String
  title : String
  items : List α
  newItems : List String
  stateField : Option String
  updatedAt : Nat
deriving DecidableEq, Repr

/-- A `pusher.trigger` payload of the order-level dedup variant
(`part_001`), which carries no `newItems` field. -/
structure PayloadNoNew where
  orderId : String
  title : String
  items : List NamedItem
  stateField : Option String
  updatedAt : Nat
deriving DecidableEq, Repr

/-- Lookup in `seenItemsMap : Map<orderId, Set<lineItemId>>`; a missing
order key behaves as the freshly created empty set. -/
def seenSetOf (m : List (String × List String)) (oid : String) : List String :=
  ((m.find? (fun p => p.1 = oid)).map Prod.snd).getD []

/-- Store an order's seen-id set back into `seenItemsMap` (in-place update
of the set object in JS; functional update or append here). -/
def mapSetSeen (m : List (String × List String)) (oid : String) (s : List String) :
    List (String × List String) :=
  if m.any (fun p => p.1 = oid) then
    m.map (fun p => if p.1 = oid then (oid, s) else p)
  else m ++ [(oid, s)]

namespace VariantA

/-- Mutable state of the first poller in `poller.js`: the module-level
`seenItemsMap` plus the `ikds` collection. -/
structure St where
  seenItemsMap : List (String × List String)
  db : List (OrderDoc SavedItem)
deriving DecidableEq, Repr

/-- Embeds `items.filter(li => !seenSet.has(li.id))` for the first poller. -/
def newOnesOf (st : St) (o : Order) : List LineItem :=
  o.lineItems.filter (fun li => ! elemStr li.id (seenSetOf st.seenItemsMap o.id))

/-- One iteration of `for (const o of recent)` in the first poller of
`poller.js` (lines 85-161): skip on zero line-items, mark only the new
line-item ids as seen, rebuild `finalItems` id-keyed from what Clover
reports, upsert, and always emit a Pusher event. -/
def processOrder (st : St) (o : Order) : St × List (Payload SavedItem) :=
  let items := o.lineItems
  if items.isEmpty then (st, [])
  else
    let seenSet := seenSetOf st.seenItemsMap o.id
    let newOnes := items.filter (fun li => ! elemStr li.id seenSet)
    let seenSet1 := addAll seenSet (newOnes.map LineItem.id)
    let existing := docFind st.db o.id
    let savedItems := (existing.map (fun d => d.items)).getD []
    let finalItems := finalItemsById items savedItems
    let db1 := updateOneUpsert st.db o finalItems
    let ev : Payload SavedItem :=
      { orderId := o.id, title := o.title, items := finalItems,
        newItems := newOnes.map LineItem.name,
        stateField := if existing.isSome then none else some "new",
        updatedAt := effectiveTime o }
    ({ seenItemsMap := mapSetSeen st.seenItemsMap o.id seenSet1, db := db1 }, [ev])

/-- The per-page `for` loop of the first poller over the `recent` orders,
threading the mutable state order by order and collecting the emitted
events in order. -/
def processOrders (st : St) : List Order → St × List (Payload SavedItem)
  | [] => (st, [])
  | o :: rest =>
    let r := processOrder st o
    let r2 := processOrders r.1 rest
    (r2.1, r.2 ++ r2.2)

end VariantA

namespace VariantB

/-- The ignore-list constant of the second poller in `poller.js`. -/
def ignoreItems : List String :=
  ["Bottled Water", "Powerade", "Powerade Big", "Coke Soda", "Mango Nectur"]

/-- Mutable state of the second poller: `seenItemsMap` plus the `ikds`
collection. -/
structure St where
  seenItemsMap : List (String × List String)
  db : List (OrderDoc SavedItem)
deriving DecidableEq, Repr

/-- Embeds `items.filter(li => !seenSet.has(li.id))` for the second poller. -/
def newOnesOf (st : St) (o : Order) : List LineItem :=
  o.lineItems.filter (fun li => ! elemStr li.id (seenSetOf st.seenItemsMap o.id))

/-- One iteration of `for (const o of recent)` in the second poller of
`poller.js` (lines 276-345): skip on zero line-items, mark the new ids as
seen, id-keyed merge, drop ignore-listed names from the persisted items
(the Pusher payload keeps the unfiltered `finalItems` and `newOnes`), and
emit only when `newOnes` is non-empty. -/
def processOrder (st : St) (o : Order) : St × List (Payload SavedItem) :=
  let items := o.lineItems
  if items.isEmpty then (st, [])
  else
    let seenSet := seenSetOf st.seenItemsMap o.id
    let newOnes := items.filter (fun li => ! elemStr li.id seenSet)
    let seenSet1 := addAll seenSet (newOnes.map LineItem.id)
    let existing := docFind st.db o.id
    let savedItems := (existing.map (fun d => d.items)).getD []
    let finalItems := finalItemsById items savedItems
    let filteredItems := finalItems.filter (fun li => ! elemStr li.name ignoreItems)
    let db1 := updateOneUpsert st.db o filteredItems
    let evs : List (Payload SavedItem) :=
      if newOnes.isEmpty then []
      else
        [{ orderId := o.id, title := o.title, items := finalItems,
           newItems := newOnes.map LineItem.name,
           stateField := if existing.isSome then none else some "new",
           updatedAt := effectiveTime o }]
    ({ seenItemsMap := mapSetSeen st.seenItemsMap o.id seenSet1, db := db1 }, evs)

/-- The second poller's per-order body with a fallible persistence write:
when the write for this order fails, the exception is raised after the
new ids were already marked seen (line 290 precedes lines 294-328), so
the thrown state carries the updated tracker and the unchanged database. -/
def processOrderExc (failing : List String) (st : St) (o : Order) :
    Except St (St × List (Payload SavedItem)) :=
  let items := o.lineItems
  if items.isEmpty then .ok (st, [])
  else
    let seenSet := seenSetOf st.seenItemsMap o.id
    let newOnes := items.filter (fun li => ! elemStr li.id seenSet)
    let seenSet1 := addAll seenSet (newOnes.map LineItem.id)
    let st1 : St := { st with seenItemsMap := mapSetSeen st.seenItemsMap o.id seenSet1 }
    if elemStr o.id failing then .error st1
    else
      let existing := docFind st.db o.id
      let savedItems := (existing.map (fun d => d.items)).getD []
      let finalItems := finalItemsById items savedItems
      let filteredItems := finalItems.filter (fun li => ! elemStr li.name ignoreItems)
      let db1 := updateOneUpsert st.db o filteredItems
      let evs : List (Payload SavedItem) :=
        if newOnes.isEmpty then []
        else
          [{ orderId := o.id, title := o.title, items := finalItems,
             newItems := newOnes.map LineItem.name,
             stateField := if existing.isSome then none else some "new",
             updatedAt := effectiveTime o }]
      .ok ({ st1 with db := db1 }, evs)

end VariantB

namespace VariantC

/-- Mutable state of the third poller in `poller.js` (name-keyed merge):
`seenItemsMap` plus the `ikds` collection of name-keyed documents. -/
structure St where
  seenItemsMap : List (String × List String)
  db : List (OrderDoc NamedItem)
deriving DecidableEq, Repr

/-- Embeds `items.filter(li => !seenSet.has(li.id))` for the third poller. -/
def newOnesOf (st : St) (o : Order) : List LineItem :=
  o.lineItems.filter (fun li => ! elemStr li.id (seenSetOf st.seenItemsMap o.id))

/-- One iteration of `for (const o of recent)` in the third poller of
`poller.js` (lines 477-543): skip on zero line-items; the seen set is
created (and stored) before the novelty check; `continue` when no new
line-item ids; otherwise mark all current ids as seen, name-keyed merge,
upsert and emit. -/
def processOrder (st : St) (o : Order) : St × List (Payload NamedItem) :=
  let items := o.lineItems
  if items.isEmpty then (st, [])
  else
    let seenSet := seenSetOf st.seenItemsMap o.id
    let st1 : St := { st with seenItemsMap := mapSetSeen st.seenItemsMap o.id seenSet }
    let newOnes := items.filter (fun li => ! elemStr li.id seenSet)
    if newOnes.isEmpty then (st1, [])
    else
      let seenSet1 := addAll seenSet (items.map LineItem.id)
      let cloverNames := cloverNamesOf items
      let existing := docFind st.db o.id
      let savedItems := (existing.map (fun d => d.items)).getD []
      let finalItems := finalItemsByName cloverNames savedItems
      let db1 := updateOneUpsert st.db o finalItems
      let ev : Payload NamedItem :=
        { orderId := o.id, title := o.title, items := finalItems,
          newItems := newOnes.map LineItem.name,
          stateField := if existing.isSome then none else some "new",
          updatedAt := effectiveTime o }
      ({ seenItemsMap := mapSetSeen st.seenItemsMap o.id seenSet1, db := db1 }, [ev])

/-- The per-page `for` loop of the third poller over the `recent` orders,
threading the mutable state order by order and collecting the emitted
events in order. -/
def processOrders (st : St) : List Order → St × List (Payload NamedItem)
  | [] => (st, [])
  | o :: rest =>
    let r := processOrder st o
    let r2 := processOrders r.1 rest
    (r2.1, r.2 ++ r2.2)

end VariantC

namespace Part001

/-- Mutable state of the `part_001` poller: the order-level `seenOrders`
set plus the `ikds` collection of name-keyed documents. -/
structure St where
  seenOrders : List String
  db : List (OrderDoc NamedItem)
deriving DecidableEq, Repr

/-- One iteration of `for (const o of recent)` in `part_001` (lines
87-146): skip an order already in `seenOrders`; otherwise mark the order
seen unconditionally (before any item check), name-keyed merge guarded on
empty `cloverNames`, upsert, and always emit a Pusher event (its payload
has no `newItems` field). -/
def processOrder (st : St) (o : Order) : St × List PayloadNoNew :=
  if elemStr o.id st.seenOrders then (st, [])
  else
    let seen1 := addAll st.seenOrders [o.id]
    let cloverNames := cloverNamesOf o.lineItems
    let existing := docFind st.db o.id
    let savedItems := (existing.map (fun d => d.items)).getD []
    let finalItems := finalItemsGuarded cloverNames savedItems
    let db1 := updateOneUpsert st.db o finalItems
    let ev : PayloadNoNew :=
      { orderId := o.id, title := o.title, items := finalItems,
        stateField := if existing.isSome then none else some "new",
        updatedAt := effectiveTime o }
    ({ seenOrders := seen1, db := db1 }, [ev])

end Part001

namespace VariantA

/-- The first poller's per-order body with a fallible persistence step:
when the read or write for this order fails, the exception is raised after
the new ids were already marked seen (line 103 precedes lines 109-142), so
the thrown state carries the updated tracker and the unchanged database. -/
def processOrderExc (failing : List String) (st : St) (o : Order) :
    Except St (St × List (Payload SavedItem)) :=
  let items := o.lineItems
  if items.isEmpty then .ok (st, [])
  else
    let seenSet := seenSetOf st.seenItemsMap o.id
    let newOnes := items.filter (fun li => ! elemStr li.id seenSet)
    let seenSet1 := addAll seenSet (newOnes.map LineItem.id)
    let st1 : St := { st with seenItemsMap := mapSetSeen st.seenItemsMap o.id seenSet1 }
    if elemStr o.id failing then .error st1
    else
      let existing := docFind st.db o.id
      let savedItems := (existing.map (fun d => d.items)).getD []
      let finalItems := finalItemsById items savedItems
      let db1 := updateOneUpsert st.db o finalItems
      let ev : Payload SavedItem :=
        { orderId := o.id, title := o.title, items := finalItems,
          newItems := newOnes.map LineItem.name,
          stateField := if existing.isSome then none else some "new",
          updatedAt := effectiveTime o }
      .ok ({ st1 with db := db1 }, [ev])

/-- The `for` loop over a page with the surrounding `try { while ... } catch`
of the first poller (lines 64-174): the first exception aborts the whole
cycle, so the remaining orders of the page are not processed; events
emitted before the failure stand. -/
def processOrdersExc (failing : List String) (st : St) :
    List Order → St × List (Payload SavedItem)
  | [] => (st, [])
  | o :: rest =>
    match processOrderExc failing st o with
    | .error st1 => (st1, [])
    | .ok (st1, evs) =>
      let r := processOrdersExc failing st1 rest
      (r.1, evs ++ r.2)

end VariantA

/-- The creation time of `elements[elements.length - 1]` (the last record of a
page); `0` for an empty page, which the loop never queries. -/
def lastCreated (page : List Order) : Nat :=
  ((page.getLast?).map Order.createdTime).getD 0

/-- The offsets at which the paging `while (true)` loop of `pollOnce`
requests a page, driven by `fetchPage : offset → records`. The loop breaks
on an empty page, and otherwise breaks after processing exactly when
`elements.length < limit || elements[elements.length - 1].createdTime < twoHoursAgo`;
otherwise `offset += limit` and the next page is requested. Structurally
recursive on `fuel`. -/
def requestedOffsets (fetchPage : Nat → List Order) (limit bound : Nat) :
    Nat → Nat → List Nat
  | 0, _ => []
  | fuel + 1, offset =>
    let page := fetchPage offset
    if page.isEmpty then [offset]
    else if page.length < limit ∨ lastCreated page < bound then [offset]
    else offset :: requestedOffsets fetchPage limit bound fuel (offset + limit)

/-- A sequence of later syncs applied to an existing document: each step
applies only the `$set` half of the upsert (the `$setOnInsert` half does
not fire for an existing document). -/
def syncSeq {α : Type} (d : OrderDoc α) (steps : List (Order × List α)) : OrderDoc α :=
  steps.foldl (fun acc p => applySetFields acc p.1 p.2) d

/-- Concrete persisted document used to instantiate theorems: order `"o1"`
already stored with the non-default workflow state `"ready"`. -/
def sampleSavedDoc : OrderDoc SavedItem :=
  { orderId := "o1", title := "T", state := "ready", items := [], createdAt := 1, updatedAt := 1 }

/-- Concrete fetched order `"o1"` with no line-items. -/
def sampleSyncOrder : Order :=
  { id := "o1", title := "T2", createdTime := 5, modifiedTime := 7, updatedTime := 0,
    lineItems := [] }

/-- Concrete fetched order `"o1"` with a single line-item `i1` named
`"Latte"`. -/
def orderLatte : Order :=
  { id := "o1", title := "T", createdTime := 1, modifiedTime := 0, updatedTime := 0,
    lineItems := [{ id := "i1", name := "Latte" }] }

/-- Concrete fetched order `"o1"` whose first line-item is named
`"Bottled Water"`, a name on the ignore-list. -/
def orderWater : Order :=
  { id := "o1", title := "T", createdTime := 1, modifiedTime := 0, updatedTime := 0,
    lineItems := [{ id := "i1", name := "Bottled Water" }, { id := "i2", name := "Latte" }] }

/-- Concrete fetched order `"o2"` with a single line-item `i9` named
`"Muffin"`. -/
def orderMuffin : Order :=
  { id := "o2", title := "U", createdTime := 2, modifiedTime := 0, updatedTime := 0,
    lineItems := [{ id := "i9", name := "Muffin" }] }

/-- Concrete fetched order `"o1"` with no line-items yet. -/
def orderEmptyItems : Order :=
  { id := "o1", title := "T", createdTime := 1, modifiedTime := 0, updatedTime := 0,
    lineItems := [] }

/-! Supporting lemmas about the JS `Set` and `Map` embeddings. -/

theorem elemStr_iff_mem {x : String} {l : List String} : elemStr x l = true ↔ x ∈ l := by
  simp [elemStr, List.any_eq_true]

theorem addAll_cons (s : List String) (i : String) (ids : List String) :
    addAll s (i :: ids) = addAll (if elemStr i s then s else s ++ [i]) ids := rfl

theorem mem_addAll {x : String} {ids : List String} {s : List String} :
    x ∈ addAll s ids ↔ x ∈ s ∨ x ∈ ids := by
  induction ids generalizing s with
  | nil => simp [addAll]
  | cons i ids ih =>
    rw [addAll_cons, ih]
    by_cases hi : elemStr i s = true
    · have hmem : i ∈ s := elemStr_iff_mem.mp hi
      rw [if_pos hi]
      simp only [List.mem_cons]
      constructor
      · rintro (h | h)
        · exact Or.inl h
        · exact Or.inr (Or.inr h)
      · rintro (h | rfl | h)
        · exact Or.inl h
        · exact Or.inl hmem
        · exact Or.inr h
    · rw [if_neg hi]
      simp only [List.mem_append, List.mem_singleton, List.mem_cons]
      tauto

theorem elemStr_addAll {x : String} {ids s : List String} :
    elemStr x (addAll s ids) = true ↔ x ∈ s ∨ x ∈ ids := by
  rw [elemStr_iff_mem, mem_addAll]

theorem jsMapHas_iff {m : List (String × String)} {k : String} :
    jsMapHas m k = true ↔ k ∈ m.map Prod.fst := by
  simp [jsMapHas, List.any_eq_true]

theorem mem_of_jsMapGet {m : List (String × String)} {k v : String}
    (h : jsMapGet m k = some v) : (k, v) ∈ m := by
  unfold jsMapGet at h
  cases hf : m.find? (fun p => decide (p.1 = k)) with
  | none => rw [hf] at h; simp at h
  | some p =>
    rw [hf] at h
    simp only [Option.map_some'] at h
    have hk : p.1 = k := by simpa using List.find?_some hf
    have hm := List.mem_of_find?_eq_some hf
    have : p = (k, v) := by
      cases p
      simp only [Prod.mk.injEq]
      exact ⟨hk, by simpa using h⟩
    rwa [this] at hm

theorem mem_jsMapSet_sub {m : List (String × String)} {k v : String} {q : String × String}
    (h : q ∈ jsMapSet m k v) : q ∈ m ∨ q = (k, v) := by
  unfold jsMapSet at h
  by_cases hh : jsMapHas m k = true
  · rw [if_pos hh] at h
    obtain ⟨p, hp, hq⟩ := List.mem_map.mp h
    by_cases hpk : p.1 = k
    · rw [if_pos hpk] at hq; exact Or.inr hq.symm
    · rw [if_neg hpk] at hq; exact Or.inl (hq ▸ hp)
  · rw [if_neg hh] at h
    rcases List.mem_append.mp h with h | h
    · exact Or.inl h
    · exact Or.inr (List.mem_singleton.mp h)

theorem mem_keys_jsMapSet {m : List (String × String)} {k0 v k : String} :
    k ∈ (jsMapSet m k0 v).map Prod.fst ↔ k ∈ m.map Prod.fst ∨ k = k0 := by
  unfold jsMapSet
  by_cases hh : jsMapHas m k0 = true
  · rw [if_pos hh]
    have hmem : k0 ∈ m.map Prod.fst := jsMapHas_iff.mp hh
    rw [List.map_map]
    have hc : (Prod.fst ∘ fun p : String × String => if p.1 = k0 then (k0, v) else p) =
        Prod.fst := by
      funext p
      by_cases hp : p.1 = k0
      · simp [hp]
      · simp [hp]
    rw [hc]
    constructor
    · exact Or.inl
    · rintro (h | rfl)
      · exact h
      · exact hmem
  · rw [if_neg hh]
    simp [List.mem_append]

theorem nodup_keys_jsMapSet {m : List (String × String)} {k v : String}
    (h : (m.map Prod.fst).Nodup) : ((jsMapSet m k v).map Prod.fst).Nodup := by
  unfold jsMapSet
  by_cases hh : jsMapHas m k = true
  · rw [if_pos hh, List.map_map]
    have hc : (Prod.fst ∘ fun p : String × String => if p.1 = k then (k, v) else p) =
        Prod.fst := by
      funext p
      by_cases hp : p.1 = k
      · simp [hp]
      · simp [hp]
    rwa [hc]
  · rw [if_neg hh]
    have hk : k ∉ m.map Prod.fst := fun hc => by
      rw [← jsMapHas_iff] at hc
      exact absurd hc (by simpa using hh)
    rw [List.map_append]
    exact List.nodup_append.mpr ⟨h, List.nodup_singleton _, by
      intro a ha hb
      simp only [List.map_singleton, List.mem_singleton] at hb
      exact hk (hb ▸ ha)⟩

theorem mem_keys_foldSet {ps : List (String × String)} {acc : List (String × String)}
    {k : String} :
    k ∈ ((ps.foldl (fun m p => jsMapSet m p.1 p.2) acc).map Prod.fst) ↔
      k ∈ acc.map Prod.fst ∨ k ∈ ps.map Prod.fst := by
  induction ps generalizing acc with
  | nil => simp
  | cons p ps ih =>
    rw [List.foldl_cons, ih, mem_keys_jsMapSet]
    simp only [List.map_cons, List.mem_cons]
    tauto

theorem mem_keys_jsMapOfPairs {ps : List (String × String)} {k : String} :
    k ∈ (jsMapOfPairs ps).map Prod.fst ↔ k ∈ ps.map Prod.fst := by
  unfold jsMapOfPairs
  rw [mem_keys_foldSet]
  simp

theorem nodup_keys_foldSet {ps : List (String × String)} {acc : List (String × String)}
    (h : (acc.map Prod.fst).Nodup) :
    (((ps.foldl (fun m p => jsMapSet m p.1 p.2) acc).map Prod.fst)).Nodup := by
  induction ps generalizing acc with
  | nil => simpa
  | cons p ps ih => exact ih (nodup_keys_jsMapSet h)

theorem nodup_keys_jsMapOfPairs {ps : List (String × String)} :
    ((jsMapOfPairs ps).map Prod.fst).Nodup :=
  nodup_keys_foldSet (by simp)

theorem mem_jsMapOfPairs_sub {ps : List (String × String)} {q : String × String}
    (h : q ∈ jsMapOfPairs ps) : q ∈ ps := by
  unfold jsMapOfPairs at h
  have key : ∀ (ps acc : List (String × String)),
      q ∈ ps.foldl (fun m p => jsMapSet m p.1 p.2) acc → q ∈ acc ∨ q ∈ ps := by
    intro ps
    induction ps with
    | nil => intro acc h0; exact Or.inl h0
    | cons p ps ih =>
      intro acc h0
      rw [List.foldl_cons] at h0
      rcases ih _ h0 with h1 | h1
      · rcases mem_jsMapSet_sub h1 with h2 | h2
        · exact Or.inl h2
        · exact Or.inr (by simp [h2])
      · exact Or.inr (List.mem_cons_of_mem _ h1)
  rcases key ps [] h with h1 | h1
  · simp at h1
  · exact h1

theorem addFreshNames_cons (m : List (String × String)) (n : String) (names : List String) :
    addFreshNames m (n :: names) =
      addFreshNames (if jsMapHas m n then m else jsMapSet m n "new") names := rfl

theorem mem_keys_addFreshNames {m : List (String × String)} {names : List String}
    {k : String} :
    k ∈ (addFreshNames m names).map Prod.fst ↔ k ∈ m.map Prod.fst ∨ k ∈ names := by
  induction names generalizing m with
  | nil => simp [addFreshNames]
  | cons n names ih =>
    rw [addFreshNames_cons, ih]
    by_cases hh : jsMapHas m n = true
    · rw [if_pos hh]
      have hmem : n ∈ m.map Prod.fst := jsMapHas_iff.mp hh
      simp only [List.mem_cons]
      constructor
      · rintro (h | h)
        · exact Or.inl h
        · exact Or.inr (Or.inr h)
      · rintro (h | rfl | h)
        · exact Or.inl h
        · exact Or.inl hmem
        · exact Or.inr h
    · rw [if_neg hh, mem_keys_jsMapSet]
      simp only [List.mem_cons]
      tauto

theorem nodup_keys_addFreshNames {m : List (String × String)} {names : List String}
    (h : (m.map Prod.fst).Nodup) : ((addFreshNames m names).map Prod.fst).Nodup := by
  induction names generalizing m with
  | nil => simpa [addFreshNames]
  | cons n names ih =>
    rw [addFreshNames_cons]
    by_cases hh : jsMapHas m n = true
    · rw [if_pos hh]; exact ih h
    · rw [if_neg hh]; exact ih (nodup_keys_jsMapSet h)

theorem addFreshNames_entries {m : List (String × String)} {names : List String}
    {q : String × String} (h : q ∈ addFreshNames m names) : q ∈ m ∨ q.2 = "new" := by
  induction names generalizing m with
  | nil => exact Or.inl h
  | cons n names ih =>
    rw [addFreshNames_cons] at h
    by_cases hh : jsMapHas m n = true
    · rw [if_pos hh] at h; exact ih h
    · rw [if_neg hh] at h
      rcases ih h with h1 | h1
      · rcases mem_jsMapSet_sub h1 with h2 | h2
        · exact Or.inl h2
        · exact Or.inr (by simp [h2])
      · exact Or.inr h1

theorem seenSetOf_mapSetSeen_self (m : List (String × List String)) (oid : String)
    (s : List String) : seenSetOf (mapSetSeen m oid s) oid = s := by
  unfold mapSetSeen seenSetOf
  by_cases h : (m.any fun p => decide (p.1 = oid)) = true
  · rw [if_pos h, List.find?_map]
    have hpred : ((fun p : String × List String => decide (p.1 = oid)) ∘
        (fun p : String × List String => if p.1 = oid then (oid, s) else p)) =
        (fun p : String × List String => decide (p.1 = oid)) := by
      funext p
      by_cases hp : p.1 = oid
      · simp [hp]
      · simp [hp]
    rw [hpred]
    have hsome : (m.find? (fun p => decide (p.1 = oid))).isSome := by
      rw [List.find?_isSome]
      simpa using List.any_eq_true.mp h
    obtain ⟨b, hb⟩ := Option.isSome_iff_exists.mp hsome
    have hbp : b.1 = oid := by simpa using List.find?_some hb
    rw [hb]
    simp [hbp]
  · rw [if_neg h, List.find?_append]
    have hnone : m.find? (fun p => decide (p.1 = oid)) = none := by
      rw [List.find?_eq_none]
      intro x hx
      simp only [decide_eq_true_eq]
      intro hxe
      exact h (List.any_eq_true.mpr ⟨x, hx, by simpa using hxe⟩)
    rw [hnone]
    simp [List.find?]

theorem seenSetOf_mapSetSeen_ne (m : List (String × List String)) (oid oid0 : String)
    (s : List String) (h : oid ≠ oid0) :
    seenSetOf (mapSetSeen m oid0 s) oid = seenSetOf m oid := by
  unfold mapSetSeen seenSetOf
  by_cases hh : (m.any fun p => decide (p.1 = oid0)) = true
  · rw [if_pos hh, List.find?_map]
    have hpred : ((fun p : String × List String => decide (p.1 = oid)) ∘
        (fun p : String × List String => if p.1 = oid0 then (oid0, s) else p)) =
        (fun p : String × List String => decide (p.1 = oid)) := by
      funext p
      by_cases hp : p.1 = oid0
      · simp [hp]
      · simp [hp]
    rw [hpred]
    cases hf : m.find? (fun p => decide (p.1 = oid)) with
    | none => simp
    | some b =>
      have hbp : b.1 = oid := by simpa using List.find?_some hf
      have hb0 : ¬ b.1 = oid0 := by rw [hbp]; exact h
      simp [hb0]
  · rw [if_neg hh, List.find?_append]
    have hone : List.find? (fun p => decide (p.1 = oid)) [(oid0, s)] = none := by
      rw [List.find?_eq_none]
      intro x hx
      simp only [List.mem_singleton] at hx
      subst hx
      simp only [decide_eq_true_eq]
      exact fun hc => h hc.symm
    rw [hone, Option.or_none]

theorem syncSeq_frame {α : Type} (d : OrderDoc α) (steps : List (Order × List α)) :
    (syncSeq d steps).orderId = d.orderId ∧ (syncSeq d steps).state = d.state ∧
      (syncSeq d steps).createdAt = d.createdAt := by
  induction steps generalizing d with
  | nil => exact ⟨rfl, rfl, rfl⟩
  | cons p steps ih => exact ih (applySetFields d p.1 p.2)

/-! Claim theorems. -/

/-- C5: merging an empty fresh item list with any previously persisted item
list returns the persisted items unchanged, so a transient upstream
omission of the line-item expansion never replaces the persisted items
with an empty list (the `cloverNames.length ? union : savedItems` guard of
`part_000` and `part_001`). -/
theorem claim_c5_empty_fresh_merge_identity (savedItems : List NamedItem) :
    finalItemsGuarded [] savedItems = savedItems := by
  simp [finalItemsGuarded]

/-- C9: for an order that already has a persisted document, the upsert
rewrites the collection by applying only the `$set` fields to the matching
document; `applySetFields` leaves `orderId`, `state` and `createdAt`
untouched and sets exactly `title`, `items` and `updatedAt`; hence any
sequence of later syncs (`syncSeq`) never changes an existing document's
`orderId`, `state` or `createdAt`. -/
theorem claim_c9_upsert_insert_only_fields (db : List (OrderDoc SavedItem))
    (d : OrderDoc SavedItem) (o : Order) (fi : List SavedItem)
    (steps : List (Order × List SavedItem))
    (hexists : (db.any fun d0 => decide (d0.orderId = o.id)) = true) :
    updateOneUpsert db o fi =
        db.map (fun d0 => if d0.orderId = o.id then applySetFields d0 o fi else d0)
      ∧ (applySetFields d o fi).orderId = d.orderId
      ∧ (applySetFields d o fi).state = d.state
      ∧ (applySetFields d o fi).createdAt = d.createdAt
      ∧ (applySetFields d o fi).title = o.title
      ∧ (applySetFields d o fi).items = fi
      ∧ (applySetFields d o fi).updatedAt = effectiveTime o
      ∧ (syncSeq d steps).orderId = d.orderId
      ∧ (syncSeq d steps).state = d.state
      ∧ (syncSeq d steps).createdAt = d.createdAt := by
  refine ⟨by simp [updateOneUpsert, hexists], rfl, rfl, rfl, rfl, rfl, rfl, ?_, ?_, ?_⟩
  · exact (syncSeq_frame d steps).1
  · exact (syncSeq_frame d steps).2.1
  · exact (syncSeq_frame d steps).2.2

/-- Witness for C9 at a concrete database: the existing document keeps its
identity, its `"ready"` workflow state and its creation time across an
upsert and two further syncs. -/
theorem claim_c9_upsert_insert_only_fields_witness :
    (([sampleSavedDoc].any fun d0 => decide (d0.orderId = sampleSyncOrder.id)) = true)
    ∧ (syncSeq sampleSavedDoc [(sampleSyncOrder, []), (sampleSyncOrder, [])]).state = "ready" :=
  ⟨by decide,
    by
      have h := claim_c9_upsert_insert_only_fields [sampleSavedDoc] sampleSavedDoc
        sampleSyncOrder [] [(sampleSyncOrder, []), (sampleSyncOrder, [])] (by decide)
      rw [h.2.2.2.2.2.2.2.2.1]
      rfl⟩

/-- C7: within one cycle the paging loop requests the next page, advancing
the offset by the page size, exactly until a fetched page has fewer
records than the page size or the last record on the page was created
before the window bound; either condition alone ends the cycle with no
further page request, and when neither holds the loop requests exactly
the page at `offset + limit` next. -/
theorem claim_c7_paging_terminal_conditions (fetchPage : Nat → List Order)
    (limit bound fuel offset : Nat) :
    ((fetchPage offset).length < limit →
        requestedOffsets fetchPage limit bound (fuel + 1) offset = [offset])
  ∧ (lastCreated (fetchPage offset) < bound →
        requestedOffsets fetchPage limit bound (fuel + 1) offset = [offset])
  ∧ (limit ≤ (fetchPage offset).length → 0 < limit →
      bound ≤ lastCreated (fetchPage offset) →
        requestedOffsets fetchPage limit bound (fuel + 1) offset =
          offset :: requestedOffsets fetchPage limit bound fuel (offset + limit)) := by
  refine ⟨?_, ?_, ?_⟩
  · intro h
    by_cases hempty : (fetchPage offset).isEmpty = true
    · simp [requestedOffsets, hempty]
    · simp [requestedOffsets, hempty, h]
  · intro h
    by_cases hempty : (fetchPage offset).isEmpty = true
    · simp [requestedOffsets, hempty]
    · simp [requestedOffsets, hempty, h]
  · intro hl h0 hb
    have hne : ¬ (fetchPage offset).isEmpty = true := by
      intro hc
      rw [List.isEmpty_iff] at hc
      rw [hc] at hl
      simp at hl
      omega
    have h1 : ¬ (fetchPage offset).length < limit := Nat.not_lt.mpr hl
    have h2 : ¬ lastCreated (fetchPage offset) < bound := Nat.not_lt.mpr hb
    simp [requestedOffsets, hne, h1, h2]

/-- Witness for C7: a short page stops paging, a page whose last record is
older than the bound stops paging, and a full in-window page advances the
offset by the page size. -/
theorem claim_c7_paging_terminal_conditions_witness :
    (((fun _ : Nat => ([] : List Order)) 0).length < 100
      ∧ requestedOffsets (fun _ : Nat => ([] : List Order)) 100 0 1 0 = [0])
  ∧ (lastCreated ((fun _ : Nat => [orderLatte]) 7) < 5
      ∧ requestedOffsets (fun _ : Nat => [orderLatte]) 100 5 1 7 = [7])
  ∧ (1 ≤ ((fun _ : Nat => [orderLatte]) 0).length ∧ 0 < 1 ∧ 1 ≤ lastCreated [orderLatte]
      ∧ requestedOffsets (fun _ : Nat => [orderLatte]) 1 1 1 0 =
          0 :: requestedOffsets (fun _ : Nat => [orderLatte]) 1 1 0 1) :=
  ⟨⟨by decide, (claim_c7_paging_terminal_conditions (fun _ => []) 100 0 0 0).1 (by decide)⟩,
   ⟨by decide, (claim_c7_paging_terminal_conditions (fun _ => [orderLatte]) 100 5 0 7).2.1
      (by decide)⟩,
   by decide, by decide, by decide,
   (claim_c7_paging_terminal_conditions (fun _ => [orderLatte]) 1 1 0 0).2.2
      (by decide) (by decide) (by decide)⟩

theorem jsMapGet_eq_none_of_not_mem {m : List (String × String)} {k : String}
    (h : k ∉ m.map Prod.fst) : jsMapGet m k = none := by
  unfold jsMapGet
  have hf : m.find? (fun p => decide (p.1 = k)) = none := by
    rw [List.find?_eq_none]
    intro x hx
    simp only [decide_eq_true_eq]
    intro hc
    exact h (List.mem_map.mpr ⟨x, hx, hc⟩)
  rw [hf]
  rfl

theorem jsMapGet_isSome_of_mem_keys {m : List (String × String)} {k : String}
    (h : k ∈ m.map Prod.fst) : ∃ w, jsMapGet m k = some w := by
  unfold jsMapGet
  obtain ⟨p, hp, rfl⟩ := List.mem_map.mp h
  have hs : (m.find? (fun q => decide (q.1 = p.1))).isSome := by
    rw [List.find?_isSome]
    exact ⟨p, hp, by simp⟩
  obtain ⟨q, hq⟩ := Option.isSome_iff_exists.mp hs
  exact ⟨q.2, by rw [hq]; rfl⟩

theorem pair_eq_of_nodup_keys {m : List (String × String)} {k v w : String}
    (hnd : (m.map Prod.fst).Nodup) (h1 : (k, v) ∈ m) (h2 : (k, w) ∈ m) : v = w := by
  induction m with
  | nil => cases h1
  | cons p m ih =>
    simp only [List.map_cons, List.nodup_cons] at hnd
    rcases List.mem_cons.mp h1 with e1 | e1 <;> rcases List.mem_cons.mp h2 with e2 | e2
    · rw [← e2] at e1
      exact (Prod.mk.injEq _ _ _ _).mp e1 |>.2
    · exfalso
      apply hnd.1
      rw [← e1]
      exact List.mem_map.mpr ⟨(k, w), e2, rfl⟩
    · exfalso
      apply hnd.1
      rw [← e2]
      exact List.mem_map.mpr ⟨(k, v), e1, rfl⟩
    · exact ih hnd.2 e1 e2

theorem jsMapGet_of_mem_nodup {m : List (String × String)} {k v : String}
    (hnd : (m.map Prod.fst).Nodup) (hm : (k, v) ∈ m) : jsMapGet m k = some v := by
  have hk : k ∈ m.map Prod.fst := List.mem_map.mpr ⟨(k, v), hm, rfl⟩
  obtain ⟨w, hw⟩ := jsMapGet_isSome_of_mem_keys hk
  have hmem : (k, w) ∈ m := mem_of_jsMapGet hw
  rw [hw, pair_eq_of_nodup_keys hnd hm hmem]

theorem jsMapOfPairs_get_of_nodup {ps : List (String × String)} {k v : String}
    (hnd : (ps.map Prod.fst).Nodup) (hm : (k, v) ∈ ps) :
    jsMapGet (jsMapOfPairs ps) k = some v := by
  have hk : k ∈ (jsMapOfPairs ps).map Prod.fst :=
    mem_keys_jsMapOfPairs.mpr (List.mem_map.mpr ⟨(k, v), hm, rfl⟩)
  obtain ⟨w, hw⟩ := jsMapGet_isSome_of_mem_keys hk
  have hmem : (k, w) ∈ ps := mem_jsMapOfPairs_sub (mem_of_jsMapGet hw)
  rw [hw, pair_eq_of_nodup_keys hnd hm hmem]

theorem jsMapGet_addFreshNames_of_mem {m : List (String × String)} {names : List String}
    {k : String} (h : k ∈ m.map Prod.fst) :
    jsMapGet (addFreshNames m names) k = jsMapGet m k := by
  induction names generalizing m with
  | nil => rfl
  | cons n names ih =>
    rw [addFreshNames_cons]
    by_cases hh : jsMapHas m n = true
    · rw [if_pos hh]
      exact ih h
    · rw [if_neg hh]
      have hk : k ∈ (jsMapSet m n "new").map Prod.fst := mem_keys_jsMapSet.mpr (Or.inl h)
      rw [ih hk]
      have hkn : k ≠ n := by
        rintro rfl
        exact hh (jsMapHas_iff.mpr h)
      unfold jsMapSet
      rw [if_neg hh]
      unfold jsMapGet
      rw [List.find?_append]
      have hone : List.find? (fun p => decide (p.1 = k)) [(n, "new")] = none := by
        rw [List.find?_eq_none]
        intro x hx
        simp only [List.mem_singleton] at hx
        subst hx
        simp only [decide_eq_true_eq]
        exact fun hc => hkn hc.symm
      rw [hone, Option.or_none]

/-- C1 counterexample: in the name-keyed merge of the third poller (and of
`part_000`/`part_001`), a key present only in the previously persisted
items (`"Latte"`) is kept in the result even though the fresh list is
non-empty and does not contain it — the merge is a union, not
authoritative-fresh, so the claim fails as stated. -/
theorem claim_c1_counterexample :
    "Latte" ∈ (finalItemsByName ["Muffin"]
        [{ name := "Latte", state := "ready" }]).map NamedItem.name
      ∧ "Latte" ∉ (["Muffin"] : List String) := by
  decide

/-- C1 amended: the id-keyed merge is authoritative-fresh — its result
carries exactly the fresh line-item ids in order (so it has exactly one
entry per distinct merge key present in the fresh list whenever the fresh
ids are pairwise distinct, and ids present only in the persisted items are
dropped), each entry carrying the previously persisted workflow status for
its id when one exists (any non-empty status string; the JS `||` treats an
empty string as absent) and the default `"new"` when no persisted item has
that id; the name-keyed merge instead is a union, not authoritative-fresh
— its result has exactly one entry per distinct name among the persisted
names and the fresh names (names present only in the persisted items are
retained), each entry carrying the previously persisted status for its
name when one exists and `"new"` otherwise. -/
theorem claim_c1_merge_semantics (items : List LineItem) (saved : List SavedItem)
    (names : List String) (savedN : List NamedItem) :
    ((finalItemsById items saved).map SavedItem.id = items.map LineItem.id
      ∧ ((items.map LineItem.id).Nodup → ((finalItemsById items saved).map SavedItem.id).Nodup)
      ∧ (∀ e ∈ finalItemsById items saved, e.id ∉ saved.map SavedItem.id → e.state = "new")
      ∧ ((saved.map SavedItem.id).Nodup →
          ∀ e ∈ finalItemsById items saved, ∀ i ∈ saved, i.id = e.id → ¬ i.state = "" →
            e.state = i.state)
      ∧ ∀ e ∈ finalItemsById items saved,
          (∃ i ∈ saved, i.id = e.id ∧ i.state = e.state) ∨ e.state = "new")
  ∧ (((finalItemsByName names savedN).map NamedItem.name).Nodup
      ∧ (∀ k, k ∈ (finalItemsByName names savedN).map NamedItem.name ↔
            (k ∈ savedN.map NamedItem.name ∨ k ∈ names))
      ∧ ((savedN.map NamedItem.name).Nodup →
          ∀ e ∈ finalItemsByName names savedN, ∀ i ∈ savedN, i.name = e.name →
            e.state = i.state)
      ∧ ∀ e ∈ finalItemsByName names savedN,
          (∃ i ∈ savedN, i.name = e.name ∧ i.state = e.state) ∨ e.state = "new") := by
  have hkeysId : ∀ k, k ∈ (idToState saved).map Prod.fst ↔ k ∈ saved.map SavedItem.id := by
    intro k
    unfold idToState
    rw [mem_keys_jsMapOfPairs]
    simp [List.map_map, Function.comp]
  refine ⟨⟨?_, ?_, ?_, ?_, ?_⟩, ?_, ?_, ?_, ?_⟩
  · simp [finalItemsById]
  · intro hnd
    have h0 : (finalItemsById items saved).map SavedItem.id = items.map LineItem.id := by
      simp [finalItemsById]
    rw [h0]
    exact hnd
  · intro e he hnot
    obtain ⟨li, hli, rfl⟩ := List.mem_map.mp he
    have hnone : jsMapGet (idToState saved) li.id = none := by
      apply jsMapGet_eq_none_of_not_mem
      rw [hkeysId]
      exact hnot
    simp [orNew, hnone]
  · intro hnd e he i hi hid hst
    obtain ⟨li, hli, rfl⟩ := List.mem_map.mp he
    have hndp : ((saved.map (fun i => (i.id, i.state))).map Prod.fst).Nodup := by
      rw [List.map_map]
      exact hnd
    have hget : jsMapGet (idToState saved) i.id = some i.state :=
      jsMapOfPairs_get_of_nodup hndp (List.mem_map.mpr ⟨i, hi, rfl⟩)
    rw [hid] at hget
    simp [orNew, hget, hst]
  · intro e he
    obtain ⟨li, hli, rfl⟩ := List.mem_map.mp he
    cases hg : jsMapGet (idToState saved) li.id with
    | none => right; simp [orNew, hg]
    | some s =>
      by_cases hs : s = ""
      · right; simp [orNew, hg, hs]
      · left
        have hmem := mem_jsMapOfPairs_sub (mem_of_jsMapGet hg)
        obtain ⟨i, hi, hpair⟩ := List.mem_map.mp hmem
        refine ⟨i, hi, ?_, ?_⟩
        · simpa using congrArg Prod.fst hpair
        · have h2 : i.state = s := by simpa using congrArg Prod.snd hpair
          simp [h2, orNew, hg, hs]
  · have h0 : ((finalItemsByName names savedN).map NamedItem.name) =
        (addFreshNames (nameToState savedN) names).map Prod.fst := by
      simp [finalItemsByName, List.map_map, Function.comp]
    rw [h0]
    exact nodup_keys_addFreshNames nodup_keys_jsMapOfPairs
  · intro k
    have h0 : ((finalItemsByName names savedN).map NamedItem.name) =
        (addFreshNames (nameToState savedN) names).map Prod.fst := by
      simp [finalItemsByName, List.map_map, Function.comp]
    rw [h0, mem_keys_addFreshNames]
    unfold nameToState
    rw [mem_keys_jsMapOfPairs]
    simp [List.map_map, Function.comp]
  · intro hnd e he i hi hname
    obtain ⟨p, hp, rfl⟩ := List.mem_map.mp he
    have hndp : ((savedN.map (fun i => (i.name, i.state))).map Prod.fst).Nodup := by
      rw [List.map_map]
      exact hnd
    have hgetSaved : jsMapGet (nameToState savedN) i.name = some i.state :=
      jsMapOfPairs_get_of_nodup hndp (List.mem_map.mpr ⟨i, hi, rfl⟩)
    have hkey : i.name ∈ (nameToState savedN).map Prod.fst := by
      unfold nameToState
      rw [mem_keys_jsMapOfPairs, List.map_map]
      exact List.mem_map.mpr ⟨i, hi, rfl⟩
    have hgetAll : jsMapGet (addFreshNames (nameToState savedN) names) i.name = some i.state :=
      by rw [jsMapGet_addFreshNames_of_mem hkey]; exact hgetSaved
    have hndAll : ((addFreshNames (nameToState savedN) names).map Prod.fst).Nodup :=
      nodup_keys_addFreshNames nodup_keys_jsMapOfPairs
    have hgetEntry : jsMapGet (addFreshNames (nameToState savedN) names) p.1 = some p.2 := by
      apply jsMapGet_of_mem_nodup hndAll
      rw [Prod.mk.eta]
      exact hp
    have hname2 : i.name = p.1 := by simpa using hname
    rw [← hname2] at hgetEntry
    rw [hgetEntry] at hgetAll
    simpa using hgetAll
  · intro e he
    obtain ⟨p, hp, rfl⟩ := List.mem_map.mp he
    rcases addFreshNames_entries hp with h1 | h1
    · left
      have hmem := mem_jsMapOfPairs_sub h1
      obtain ⟨i, hi, hpair⟩ := List.mem_map.mp hmem
      refine ⟨i, hi, ?_, ?_⟩
      · simpa using congrArg Prod.fst hpair
      · simpa using congrArg Prod.snd hpair
    · right; exact h1

/-- Witness for C1 amended at concrete inputs: merging fresh items
`Latte, Muffin` (distinct ids) with the persisted item `Latte: ready`
(distinct ids) carries the persisted `"ready"` status to the merged entry
with the matching id, and in the name-keyed merge with distinct persisted
names the persisted status of `"Latte"` is carried while `"Muffin"`
appears in the result. -/
theorem claim_c1_merge_semantics_witness :
    (((([{ id := "i1", name := "Latte" },
          { id := "i2", name := "Muffin" }] : List LineItem).map LineItem.id).Nodup)
      ∧ (([({ id := "i1", name := "Latte", state := "ready" } : SavedItem)].map
          SavedItem.id).Nodup)
      ∧ (({ id := "i1", name := "Latte", state := "ready" } : SavedItem) ∈
          finalItemsById [{ id := "i1", name := "Latte" }, { id := "i2", name := "Muffin" }]
            [{ id := "i1", name := "Latte", state := "ready" }])
      ∧ ({ id := "i1", name := "Latte", state := "ready" } : SavedItem).state =
          ({ id := "i1", name := "Latte", state := "ready" } : SavedItem).state)
    ∧ ((([({ name := "Latte", state := "ready" } : NamedItem)].map NamedItem.name).Nodup)
      ∧ (({ name := "Latte", state := "ready" } : NamedItem) ∈
          finalItemsByName ["Muffin"] [{ name := "Latte", state := "ready" }])
      ∧ ({ name := "Latte", state := "ready" } : NamedItem).state =
          ({ name := "Latte", state := "ready" } : NamedItem).state
      ∧ "Muffin" ∈ (finalItemsByName ["Muffin"] [{ name := "Latte", state := "ready" }]).map
          NamedItem.name) :=
  ⟨⟨by decide, by decide, by decide,
    (claim_c1_merge_semantics
        [{ id := "i1", name := "Latte" }, { id := "i2", name := "Muffin" }]
        [{ id := "i1", name := "Latte", state := "ready" }] [] []).1.2.2.2.1 (by decide)
      { id := "i1", name := "Latte", state := "ready" } (by decide)
      { id := "i1", name := "Latte", state := "ready" } (by decide) (by decide) (by decide)⟩,
   by decide,
   by decide,
   (claim_c1_merge_semantics [] [] ["Muffin"]
        [{ name := "Latte", state := "ready" }]).2.2.2.1 (by decide)
      { name := "Latte", state := "ready" } (by decide)
      { name := "Latte", state := "ready" } (by decide) (by decide),
   ((claim_c1_merge_semantics [] [] ["Muffin"] [{ name := "Latte", state := "ready" }]).2.2.1
      "Muffin").mpr (Or.inr (by decide))⟩

theorem variantB_processOrder_seen (st : VariantB.St) (o : Order)
    (h : ¬ o.lineItems.isEmpty = true) :
    seenSetOf (VariantB.processOrder st o).1.seenItemsMap o.id =
      addAll (seenSetOf st.seenItemsMap o.id) ((VariantB.newOnesOf st o).map LineItem.id) := by
  simp only [VariantB.processOrder]
  rw [if_neg h]
  exact seenSetOf_mapSetSeen_self _ _ _

theorem variantC_second_cycle_silent (st : VariantC.St) (o : Order)
    (h : ¬ o.lineItems.isEmpty = true) :
    VariantC.newOnesOf (VariantC.processOrder st o).1 o = [] := by
  rw [VariantC.newOnesOf, List.filter_eq_nil_iff]
  intro li hli
  simp only [Bool.not_eq_true', Bool.not_eq_false]
  by_cases hnew : (o.lineItems.filter
      (fun l2 => ! elemStr l2.id (seenSetOf st.seenItemsMap o.id))).isEmpty = true
  · have hmap : seenSetOf (VariantC.processOrder st o).1.seenItemsMap o.id =
        seenSetOf st.seenItemsMap o.id := by
      simp only [VariantC.processOrder]
      rw [if_neg h, if_pos hnew]
      exact seenSetOf_mapSetSeen_self _ _ _
    rw [hmap]
    have hnil := List.isEmpty_iff.mp hnew
    rw [List.filter_eq_nil_iff] at hnil
    have h2 := hnil li hli
    simpa using h2
  · have hmap : seenSetOf (VariantC.processOrder st o).1.seenItemsMap o.id =
        addAll (seenSetOf st.seenItemsMap o.id) (o.lineItems.map LineItem.id) := by
      simp only [VariantC.processOrder]
      rw [if_neg h, if_neg hnew]
      exact seenSetOf_mapSetSeen_self _ _ _
    rw [hmap, elemStr_addAll]
    exact Or.inr (List.mem_map.mpr ⟨li, hli, rfl⟩)

/-- C2 counterexample: in the first poller of `poller.js`, a second cycle
over an order whose line-item set did not change still publishes a
broadcast (its `newItems` list is empty), so "a broadcast is published
only if at least one line-item was newly observed" fails as stated. -/
theorem claim_c2_counterexample :
    (VariantA.processOrder
        (VariantA.processOrder ({ seenItemsMap := [], db := [] } : VariantA.St) orderLatte).1
        orderLatte).2.map Payload.newItems = [[]] := by
  decide

/-- C2 amended: in the second and third pollers a broadcast is published
exactly when the order has line-items and at least one of them was newly
observed this cycle, and an order whose item set is identical across two
consecutive cycles gets no broadcast on the second; the first poller,
however, publishes one broadcast for every processed order with at least
one line-item, whether or not any item is new. -/
theorem claim_c2_broadcast_gating (stB : VariantB.St) (stC : VariantC.St) (stA : VariantA.St)
    (o : Order) :
    ((VariantB.processOrder stB o).2 ≠ [] ↔
        (¬ o.lineItems.isEmpty = true ∧ VariantB.newOnesOf stB o ≠ []))
  ∧ (¬ o.lineItems.isEmpty = true →
        (VariantB.processOrder (VariantB.processOrder stB o).1 o).2 = [])
  ∧ ((VariantC.processOrder stC o).2 ≠ [] ↔
        (¬ o.lineItems.isEmpty = true ∧ VariantC.newOnesOf stC o ≠ []))
  ∧ (¬ o.lineItems.isEmpty = true →
        (VariantC.processOrder (VariantC.processOrder stC o).1 o).2 = [])
  ∧ (¬ o.lineItems.isEmpty = true → (VariantA.processOrder stA o).2.length = 1) := by
  refine ⟨?_, ?_, ?_, ?_, ?_⟩
  · by_cases hitems : o.lineItems.isEmpty = true
    · simp [VariantB.processOrder, hitems]
    · by_cases hnew : (VariantB.newOnesOf stB o).isEmpty = true
      · have hnil : VariantB.newOnesOf stB o = [] := List.isEmpty_iff.mp hnew
        simp only [VariantB.processOrder, VariantB.newOnesOf] at *
        rw [if_neg hitems]
        simp only [hnil, List.isEmpty_nil]
        simp [hnil]
      · have hnil : VariantB.newOnesOf stB o ≠ [] := by
          intro hc
          rw [VariantB.newOnesOf] at hc
          rw [VariantB.newOnesOf] at hnew
          simp [hc] at hnew
        simp only [VariantB.processOrder, VariantB.newOnesOf] at *
        rw [if_neg hitems]
        have hne : ¬ (o.lineItems.filter
            (fun li => ! elemStr li.id (seenSetOf stB.seenItemsMap o.id))).isEmpty = true := hnew
        simp only [List.isEmpty_iff] at hne
        simp [hne, hitems, hnil]
  · intro hitems
    have hseen := variantB_processOrder_seen stB o hitems
    have hnil : VariantB.newOnesOf (VariantB.processOrder stB o).1 o = [] := by
      rw [VariantB.newOnesOf, hseen, List.filter_eq_nil_iff]
      intro li hli
      simp only [Bool.not_eq_true', Bool.not_eq_false]
      rw [show (addAll (seenSetOf stB.seenItemsMap o.id)
          ((VariantB.newOnesOf stB o).map LineItem.id)) =
        addAll (seenSetOf stB.seenItemsMap o.id)
          ((VariantB.newOnesOf stB o).map LineItem.id) from rfl]
      rw [elemStr_addAll]
      by_cases hs : elemStr li.id (seenSetOf stB.seenItemsMap o.id) = true
      · exact Or.inl (elemStr_iff_mem.mp hs)
      · right
        rw [List.mem_map]
        refine ⟨li, ?_, rfl⟩
        rw [VariantB.newOnesOf, List.mem_filter]
        exact ⟨hli, by simp [hs]⟩
    set st1 := (VariantB.processOrder stB o).1 with hst1
    simp only [VariantB.processOrder]
    rw [if_neg hitems]
    rw [VariantB.newOnesOf] at hnil
    simp [hnil]
  · by_cases hitems : o.lineItems.isEmpty = true
    · simp [VariantC.processOrder, hitems]
    · by_cases hnew : (VariantC.newOnesOf stC o).isEmpty = true
      · have hnil : VariantC.newOnesOf stC o = [] := List.isEmpty_iff.mp hnew
        simp only [VariantC.processOrder, VariantC.newOnesOf] at *
        rw [if_neg hitems]
        simp [hnil]
      · have hnil : VariantC.newOnesOf stC o ≠ [] := by
          intro hc
          rw [VariantC.newOnesOf] at hc
          rw [VariantC.newOnesOf] at hnew
          simp [hc] at hnew
        simp only [VariantC.processOrder, VariantC.newOnesOf] at *
        rw [if_neg hitems]
        have hne : ¬ (o.lineItems.filter
            (fun li => ! elemStr li.id (seenSetOf stC.seenItemsMap o.id))).isEmpty = true := hnew
        simp only [List.isEmpty_iff] at hne
        simp [hne, hitems, hnil]
  · intro hitems
    have hnil := variantC_second_cycle_silent stC o hitems
    set st1 := (VariantC.processOrder stC o).1 with hst1
    simp only [VariantC.processOrder]
    rw [if_neg hitems]
    rw [VariantC.newOnesOf] at hnil
    simp [hnil]
  · intro hitems
    simp only [VariantA.processOrder]
    rw [if_neg hitems]
    rfl

/-- Witness for C2 at concrete states: a first cycle over `orderLatte`
broadcasts in the second and third pollers, the second identical cycle
does not in either, and the first poller broadcasts on the (identical)
cycle regardless. -/
theorem claim_c2_broadcast_gating_witness :
    (¬ orderLatte.lineItems.isEmpty = true)
    ∧ (VariantB.processOrder ({ seenItemsMap := [], db := [] } : VariantB.St) orderLatte).2 ≠ []
    ∧ (VariantB.processOrder
        (VariantB.processOrder ({ seenItemsMap := [], db := [] } : VariantB.St) orderLatte).1
        orderLatte).2 = []
    ∧ (VariantC.processOrder ({ seenItemsMap := [], db := [] } : VariantC.St) orderLatte).2 ≠ []
    ∧ (VariantC.processOrder
        (VariantC.processOrder ({ seenItemsMap := [], db := [] } : VariantC.St) orderLatte).1
        orderLatte).2 = []
    ∧ (VariantA.processOrder ({ seenItemsMap := [], db := [] } : VariantA.St)
        orderLatte).2.length = 1 :=
  ⟨by decide,
   ((claim_c2_broadcast_gating ({ seenItemsMap := [], db := [] } : VariantB.St)
       ({ seenItemsMap := [], db := [] } : VariantC.St)
       ({ seenItemsMap := [], db := [] } : VariantA.St) orderLatte).1).mpr
     ⟨by decide, by decide⟩,
   (claim_c2_broadcast_gating ({ seenItemsMap := [], db := [] } : VariantB.St)
       ({ seenItemsMap := [], db := [] } : VariantC.St)
       ({ seenItemsMap := [], db := [] } : VariantA.St) orderLatte).2.1 (by decide),
   ((claim_c2_broadcast_gating ({ seenItemsMap := [], db := [] } : VariantB.St)
       ({ seenItemsMap := [], db := [] } : VariantC.St)
       ({ seenItemsMap := [], db := [] } : VariantA.St) orderLatte).2.2.1).mpr
     ⟨by decide, by decide⟩,
   (claim_c2_broadcast_gating ({ seenItemsMap := [], db := [] } : VariantB.St)
       ({ seenItemsMap := [], db := [] } : VariantC.St)
       ({ seenItemsMap := [], db := [] } : VariantA.St) orderLatte).2.2.2.1 (by decide),
   (claim_c2_broadcast_gating ({ seenItemsMap := [], db := [] } : VariantB.St)
       ({ seenItemsMap := [], db := [] } : VariantC.St)
       ({ seenItemsMap := [], db := [] } : VariantA.St) orderLatte).2.2.2.2 (by decide)⟩

/-- C3: evaluation of the second poller at the failing input. When the
persistence step for order `"o1"` fails, the thrown state already carries
line-item `"i1"` in the dedup tracker while the database is unchanged, and
in the next cycle the same line-item is no longer classified as new — the
code marks seen before the write, not after it. -/
theorem claim_c3_mark_precedes_write :
    VariantB.processOrderExc ["o1"] ({ seenItemsMap := [], db := [] } : VariantB.St) orderLatte =
      Except.error ({ seenItemsMap := [("o1", ["i1"])], db := [] } : VariantB.St)
    ∧ VariantB.newOnesOf ({ seenItemsMap := [("o1", ["i1"])], db := [] } : VariantB.St)
        orderLatte = [] :=
  ⟨rfl, rfl⟩

/-- C4 counterexample: when the persistence step for the first order of a
page fails, the second order on the same page is neither persisted nor
broadcast during that cycle — the cycle is aborted rather than continuing
with subsequent orders. -/
theorem claim_c4_counterexample :
    (VariantA.processOrdersExc ["o1"] ({ seenItemsMap := [], db := [] } : VariantA.St)
        [orderLatte, orderMuffin]).1.db = []
    ∧ (VariantA.processOrdersExc ["o1"] ({ seenItemsMap := [], db := [] } : VariantA.St)
        [orderLatte, orderMuffin]).2 = [] :=
  ⟨rfl, rfl⟩

/-- C4 amended: a persistence failure for one order aborts the remainder of
the cycle — the `try/catch` wraps the whole paging loop, so the cycle
writes no document and emits no event for the failing order or for any
subsequent order of the page; the failing order's new line-item ids have,
however, already been marked seen in the tracker at the moment of the
failure. -/
theorem claim_c4_cycle_abort (failing : List String) (st : VariantA.St) (o : Order)
    (rest : List Order) (h1 : elemStr o.id failing = true)
    (h2 : ¬ o.lineItems.isEmpty = true) :
    (VariantA.processOrdersExc failing st (o :: rest)).1.db = st.db
    ∧ (VariantA.processOrdersExc failing st (o :: rest)).2 = []
    ∧ (VariantA.processOrdersExc failing st (o :: rest)).1.seenItemsMap =
        mapSetSeen st.seenItemsMap o.id
          (addAll (seenSetOf st.seenItemsMap o.id)
            ((VariantA.newOnesOf st o).map LineItem.id)) := by
  simp only [VariantA.processOrdersExc, VariantA.processOrderExc]
  rw [if_neg h2, if_pos h1]
  exact ⟨rfl, rfl, rfl⟩

/-- Witness for C4 amended: with an existing document in the store, a
failing first order leaves the database exactly as it was and the cycle
emits nothing, although a second order was on the page; the failing
order's new line-item id is nonetheless marked seen. -/
theorem claim_c4_cycle_abort_witness :
    (elemStr orderLatte.id ["o1"] = true)
    ∧ (¬ orderLatte.lineItems.isEmpty = true)
    ∧ (VariantA.processOrdersExc ["o1"]
        ({ seenItemsMap := [], db := [sampleSavedDoc] } : VariantA.St)
        [orderLatte, orderMuffin]).1.db = [sampleSavedDoc]
    ∧ (VariantA.processOrdersExc ["o1"]
        ({ seenItemsMap := [], db := [sampleSavedDoc] } : VariantA.St)
        [orderLatte, orderMuffin]).2 = []
    ∧ (VariantA.processOrdersExc ["o1"]
        ({ seenItemsMap := [], db := [sampleSavedDoc] } : VariantA.St)
        [orderLatte, orderMuffin]).1.seenItemsMap =
        mapSetSeen ([] : List (String × List String)) orderLatte.id
          (addAll (seenSetOf ([] : List (String × List String)) orderLatte.id)
            ((VariantA.newOnesOf ({ seenItemsMap := [], db := [sampleSavedDoc] } : VariantA.St)
              orderLatte).map LineItem.id)) :=
  ⟨by decide, by decide,
   (claim_c4_cycle_abort ["o1"] ({ seenItemsMap := [], db := [sampleSavedDoc] } : VariantA.St)
      orderLatte [orderMuffin] (by decide) (by decide)).1,
   (claim_c4_cycle_abort ["o1"] ({ seenItemsMap := [], db := [sampleSavedDoc] } : VariantA.St)
      orderLatte [orderMuffin] (by decide) (by decide)).2.1,
   (claim_c4_cycle_abort ["o1"] ({ seenItemsMap := [], db := [sampleSavedDoc] } : VariantA.St)
      orderLatte [orderMuffin] (by decide) (by decide)).2.2⟩

theorem finalItemsById_state_carried {items : List LineItem} {saved : List SavedItem}
    {e : SavedItem} (he : e ∈ finalItemsById items saved) :
    (∃ i ∈ saved, i.id = e.id ∧ i.state = e.state) ∨ e.state = "new" := by
  obtain ⟨li, hli, rfl⟩ := List.mem_map.mp he
  cases hg : jsMapGet (idToState saved) li.id with
  | none => right; simp [orNew, hg]
  | some s =>
    by_cases hs : s = ""
    · right; simp [orNew, hg, hs]
    · left
      have hmem := mem_jsMapOfPairs_sub (mem_of_jsMapGet hg)
      obtain ⟨i, hi, hpair⟩ := List.mem_map.mp hmem
      refine ⟨i, hi, ?_, ?_⟩
      · simpa using congrArg Prod.fst hpair
      · have h2 : i.state = s := by simpa using congrArg Prod.snd hpair
        simp [h2, orNew, hg, hs]

/-- C6 counterexample: in the `part_001` poller an order fetched with zero
line-items is persisted anyway (with an empty item list) and marked
processed, and when the same order later carries a line-item it is skipped
outright — nothing is deferred to a later cycle, refuting the claim as a
statement about the whole program. -/
theorem claim_c6_counterexample :
    (Part001.processOrder ({ seenOrders := [], db := [] } : Part001.St) orderEmptyItems).1.db =
      [({ orderId := "o1", title := "T", state := "new", items := [], createdAt := 1,
          updatedAt := 1 } : OrderDoc NamedItem)]
    ∧ Part001.processOrder
        (Part001.processOrder ({ seenOrders := [], db := [] } : Part001.St) orderEmptyItems).1
        orderLatte =
      ((Part001.processOrder ({ seenOrders := [], db := [] } : Part001.St) orderEmptyItems).1,
        []) := by
  refine ⟨rfl, ?_⟩
  decide

/-- C6 amended: the three pollers of `poller.js` skip a zero-line-item
order without any state change or persistence; once the order has items,
the first poller persists the id-keyed merge, the second poller persists
the id-keyed merge with ignore-listed names filtered out, and the third
poller — on any cycle with at least one new line-item id — persists the
name-keyed merge; in the id-keyed merge every entry carries a persisted
state for its id or the default `"new"`. The `part_001` poller instead
marks a zero-item order processed immediately (persisting its saved,
possibly empty, item list) and never reprocesses an order it has marked. -/
theorem claim_c6_zero_item_defer (stA : VariantA.St) (stB : VariantB.St) (stC : VariantC.St)
    (stp : Part001.St) (o op : Order) (items : List LineItem) (saved : List SavedItem)
    (e : SavedItem) :
    (o.lineItems.isEmpty = true →
        VariantA.processOrder stA o = (stA, [])
        ∧ VariantB.processOrder stB o = (stB, [])
        ∧ VariantC.processOrder stC o = (stC, []))
  ∧ (¬ o.lineItems.isEmpty = true →
        (VariantA.processOrder stA o).1.db = updateOneUpsert stA.db o
          (finalItemsById o.lineItems (((docFind stA.db o.id).map (fun d => d.items)).getD [])))
  ∧ (¬ o.lineItems.isEmpty = true →
        (VariantB.processOrder stB o).1.db = updateOneUpsert stB.db o
          ((finalItemsById o.lineItems
              (((docFind stB.db o.id).map (fun d => d.items)).getD [])).filter
            (fun li => ! elemStr li.name VariantB.ignoreItems)))
  ∧ (¬ o.lineItems.isEmpty = true → ¬ VariantC.newOnesOf stC o = [] →
        (VariantC.processOrder stC o).1.db = updateOneUpsert stC.db o
          (finalItemsByName (cloverNamesOf o.lineItems)
            (((docFind stC.db o.id).map (fun d => d.items)).getD [])))
  ∧ (e ∈ finalItemsById items saved →
        (∃ i ∈ saved, i.id = e.id ∧ i.state = e.state) ∨ e.state = "new")
  ∧ (elemStr op.id stp.seenOrders = true → Part001.processOrder stp op = (stp, [])) := by
  refine ⟨?_, ?_, ?_, ?_, ?_, ?_⟩
  · intro h0
    refine ⟨?_, ?_, ?_⟩
    · simp only [VariantA.processOrder]; rw [if_pos h0]
    · simp only [VariantB.processOrder]; rw [if_pos h0]
    · simp only [VariantC.processOrder]; rw [if_pos h0]
  · intro h0
    simp only [VariantA.processOrder]
    rw [if_neg h0]
  · intro h0
    simp only [VariantB.processOrder]
    rw [if_neg h0]
  · intro h0 hnew
    rw [VariantC.newOnesOf] at hnew
    have hne : ¬ (o.lineItems.filter
        (fun li => ! elemStr li.id (seenSetOf stC.seenItemsMap o.id))).isEmpty = true := by
      rw [List.isEmpty_iff]
      exact hnew
    simp only [VariantC.processOrder]
    rw [if_neg h0, if_neg hne]
  · exact fun he => finalItemsById_state_carried he
  · intro h0
    simp only [Part001.processOrder]
    rw [if_pos h0]

/-- Witness for C6 amended at concrete inputs: a zero-item order leaves all
three poller states untouched, a one-item order is persisted via the
id-keyed merge in the first poller, via the ignore-filtered id-keyed merge
in the second, and via the name-keyed merge in the third (which has a new
line-item id), the merged entry for a fresh id is `"new"`, and an order
already marked in `seenOrders` is skipped. -/
theorem claim_c6_zero_item_defer_witness :
    (orderEmptyItems.lineItems.isEmpty = true)
    ∧ (VariantA.processOrder ({ seenItemsMap := [], db := [] } : VariantA.St) orderEmptyItems =
        (({ seenItemsMap := [], db := [] } : VariantA.St), []))
    ∧ (¬ orderLatte.lineItems.isEmpty = true)
    ∧ ((VariantA.processOrder ({ seenItemsMap := [], db := [] } : VariantA.St) orderLatte).1.db =
        updateOneUpsert ([] : List (OrderDoc SavedItem)) orderLatte
          (finalItemsById orderLatte.lineItems
            (((docFind ([] : List (OrderDoc SavedItem)) orderLatte.id).map
              (fun d => d.items)).getD [])))
    ∧ ((VariantB.processOrder ({ seenItemsMap := [], db := [] } : VariantB.St) orderLatte).1.db =
        updateOneUpsert ([] : List (OrderDoc SavedItem)) orderLatte
          ((finalItemsById orderLatte.lineItems
              (((docFind ([] : List (OrderDoc SavedItem)) orderLatte.id).map
                (fun d => d.items)).getD [])).filter
            (fun li => ! elemStr li.name VariantB.ignoreItems)))
    ∧ (¬ VariantC.newOnesOf ({ seenItemsMap := [], db := [] } : VariantC.St) orderLatte = []
      ∧ (VariantC.processOrder ({ seenItemsMap := [], db := [] } : VariantC.St)
            orderLatte).1.db =
          updateOneUpsert ([] : List (OrderDoc NamedItem)) orderLatte
            (finalItemsByName (cloverNamesOf orderLatte.lineItems)
              (((docFind ([] : List (OrderDoc NamedItem)) orderLatte.id).map
                (fun d => d.items)).getD [])))
    ∧ (({ id := "i1", name := "Latte", state := "new" } : SavedItem) ∈
        finalItemsById [{ id := "i1", name := "Latte" }] []
      ∧ ((∃ i ∈ ([] : List SavedItem),
            i.id = ({ id := "i1", name := "Latte", state := "new" } : SavedItem).id
              ∧ i.state = ({ id := "i1", name := "Latte", state := "new" } : SavedItem).state)
          ∨ ({ id := "i1", name := "Latte", state := "new" } : SavedItem).state = "new"))
    ∧ (elemStr orderLatte.id ["o1"] = true
      ∧ Part001.processOrder ({ seenOrders := ["o1"], db := [] } : Part001.St) orderLatte =
          (({ seenOrders := ["o1"], db := [] } : Part001.St), [])) :=
  ⟨by decide,
   ((claim_c6_zero_item_defer ({ seenItemsMap := [], db := [] } : VariantA.St)
       ({ seenItemsMap := [], db := [] } : VariantB.St)
       ({ seenItemsMap := [], db := [] } : VariantC.St)
       ({ seenOrders := [], db := [] } : Part001.St) orderEmptyItems orderLatte [] []
       ({ id := "x", name := "x", state := "x" } : SavedItem)).1 (by decide)).1,
   by decide,
   (claim_c6_zero_item_defer ({ seenItemsMap := [], db := [] } : VariantA.St)
       ({ seenItemsMap := [], db := [] } : VariantB.St)
       ({ seenItemsMap := [], db := [] } : VariantC.St)
       ({ seenOrders := [], db := [] } : Part001.St) orderLatte orderLatte [] []
       ({ id := "x", name := "x", state := "x" } : SavedItem)).2.1 (by decide),
   (claim_c6_zero_item_defer ({ seenItemsMap := [], db := [] } : VariantA.St)
       ({ seenItemsMap := [], db := [] } : VariantB.St)
       ({ seenItemsMap := [], db := [] } : VariantC.St)
       ({ seenOrders := [], db := [] } : Part001.St) orderLatte orderLatte [] []
       ({ id := "x", name := "x", state := "x" } : SavedItem)).2.2.1 (by decide),
   ⟨by decide,
    (claim_c6_zero_item_defer ({ seenItemsMap := [], db := [] } : VariantA.St)
       ({ seenItemsMap := [], db := [] } : VariantB.St)
       ({ seenItemsMap := [], db := [] } : VariantC.St)
       ({ seenOrders := [], db := [] } : Part001.St) orderLatte orderLatte [] []
       ({ id := "x", name := "x", state := "x" } : SavedItem)).2.2.2.1 (by decide) (by decide)⟩,
   ⟨by decide,
    (claim_c6_zero_item_defer ({ seenItemsMap := [], db := [] } : VariantA.St)
       ({ seenItemsMap := [], db := [] } : VariantB.St)
       ({ seenItemsMap := [], db := [] } : VariantC.St)
       ({ seenOrders := [], db := [] } : Part001.St) orderLatte orderLatte
       [{ id := "i1", name := "Latte" }] []
       ({ id := "i1", name := "Latte", state := "new" } : SavedItem)).2.2.2.2.1 (by decide)⟩,
   by decide,
   (claim_c6_zero_item_defer ({ seenItemsMap := [], db := [] } : VariantA.St)
       ({ seenItemsMap := [], db := [] } : VariantB.St)
       ({ seenItemsMap := [], db := [] } : VariantC.St)
       ({ seenOrders := ["o1"], db := [] } : Part001.St) orderLatte orderLatte [] []
       ({ id := "x", name := "x", state := "x" } : SavedItem)).2.2.2.2.2 (by decide)⟩

/-- C8: evaluation of the second poller at an order carrying the
ignore-listed name `"Bottled Water"`. The persisted document omits the
ignored item, but the broadcast payload still contains it in both its
`items` array and its `newItems` names — the trigger uses the unfiltered
`finalItems` and `newOnes`, so the ignored name is not absent from the
broadcast as the claim requires. -/
theorem claim_c8_ignored_name_reaches_broadcast :
    ((VariantB.processOrder ({ seenItemsMap := [], db := [] } : VariantB.St) orderWater).1.db.map
        (fun d => d.items.map SavedItem.name)) = [["Latte"]]
    ∧ ((VariantB.processOrder ({ seenItemsMap := [], db := [] } : VariantB.St) orderWater).2.map
        (fun p => p.items.map SavedItem.name)) = [["Bottled Water", "Latte"]]
    ∧ ((VariantB.processOrder ({ seenItemsMap := [], db := [] } : VariantB.St) orderWater).2.map
        Payload.newItems) = [["Bottled Water", "Latte"]] := by
  refine ⟨rfl, rfl, rfl⟩

theorem variantA_seen_mono (st : VariantA.St) (o : Order) (oid i : String)
    (h : elemStr i (seenSetOf st.seenItemsMap oid) = true) :
    elemStr i (seenSetOf (VariantA.processOrder st o).1.seenItemsMap oid) = true := by
  by_cases hitems : o.lineItems.isEmpty = true
  · simp only [VariantA.processOrder]
    rw [if_pos hitems]
    exact h
  · simp only [VariantA.processOrder]
    rw [if_neg hitems]
    by_cases hoid : oid = o.id
    · subst hoid
      dsimp only
      rw [seenSetOf_mapSetSeen_self, elemStr_addAll]
      exact Or.inl (elemStr_iff_mem.mp h)
    · dsimp only
      rw [seenSetOf_mapSetSeen_ne _ _ _ _ hoid]
      exact h

theorem variantC_seen_mono (st : VariantC.St) (o : Order) (oid i : String)
    (h : elemStr i (seenSetOf st.seenItemsMap oid) = true) :
    elemStr i (seenSetOf (VariantC.processOrder st o).1.seenItemsMap oid) = true := by
  by_cases hitems : o.lineItems.isEmpty = true
  · simp only [VariantC.processOrder]
    rw [if_pos hitems]
    exact h
  · simp only [VariantC.processOrder]
    rw [if_neg hitems]
    by_cases hnew : (o.lineItems.filter
        (fun li => ! elemStr li.id (seenSetOf st.seenItemsMap o.id))).isEmpty = true
    · rw [if_pos hnew]
      by_cases hoid : oid = o.id
      · subst hoid
        dsimp only
        rw [seenSetOf_mapSetSeen_self]
        exact h
      · dsimp only
        rw [seenSetOf_mapSetSeen_ne _ _ _ _ hoid]
        exact h
    · rw [if_neg hnew]
      by_cases hoid : oid = o.id
      · subst hoid
        dsimp only
        rw [seenSetOf_mapSetSeen_self, elemStr_addAll]
        exact Or.inl (elemStr_iff_mem.mp h)
      · dsimp only
        rw [seenSetOf_mapSetSeen_ne _ _ _ _ hoid]
        exact h

theorem variantA_seen_mono_cycle (st : VariantA.St) (orders : List Order) (oid i : String)
    (h : elemStr i (seenSetOf st.seenItemsMap oid) = true) :
    elemStr i (seenSetOf (VariantA.processOrders st orders).1.seenItemsMap oid) = true := by
  induction orders generalizing st with
  | nil => exact h
  | cons o rest ih =>
    simp only [VariantA.processOrders]
    exact ih _ (variantA_seen_mono st o oid i h)

theorem variantC_seen_mono_cycle (st : VariantC.St) (orders : List Order) (oid i : String)
    (h : elemStr i (seenSetOf st.seenItemsMap oid) = true) :
    elemStr i (seenSetOf (VariantC.processOrders st orders).1.seenItemsMap oid) = true := by
  induction orders generalizing st with
  | nil => exact h
  | cons o rest ih =>
    simp only [VariantC.processOrders]
    exact ih _ (variantC_seen_mono st o oid i h)

/-- C10: the dedup tracker only grows within a process lifetime — in both
line-item-tracking pollers whose tracker survives across cycles, any item
id already recorded as seen for an order is still recorded after
processing any further list of orders, and an item id recorded as seen is
never again classified as new (it is excluded from `newOnes`) for that
order in any later cycle. -/
theorem claim_c10_tracker_monotone (stA : VariantA.St) (stC : VariantC.St)
    (ordersA ordersC : List Order) (oid i : String) (oA oC : Order)
    (liA liC : LineItem) :
    ((elemStr i (seenSetOf stA.seenItemsMap oid) = true →
        elemStr i (seenSetOf (VariantA.processOrders stA ordersA).1.seenItemsMap oid) = true)
      ∧ (elemStr liA.id (seenSetOf stA.seenItemsMap oA.id) = true →
          liA ∉ VariantA.newOnesOf stA oA))
  ∧ ((elemStr i (seenSetOf stC.seenItemsMap oid) = true →
        elemStr i (seenSetOf (VariantC.processOrders stC ordersC).1.seenItemsMap oid) = true)
      ∧ (elemStr liC.id (seenSetOf stC.seenItemsMap oC.id) = true →
          liC ∉ VariantC.newOnesOf stC oC)) := by
  refine ⟨⟨fun h => variantA_seen_mono_cycle stA ordersA oid i h, ?_⟩,
          fun h => variantC_seen_mono_cycle stC ordersC oid i h, ?_⟩
  · intro h hc
    rw [VariantA.newOnesOf, List.mem_filter] at hc
    rw [h] at hc
    simp at hc
  · intro h hc
    rw [VariantC.newOnesOf, List.mem_filter] at hc
    rw [h] at hc
    simp at hc

/-- Witness for C10 at a concrete tracker: item `"i1"` of order `"o1"`,
already seen, is still seen after a cycle over `orderLatte` and
`orderMuffin` and is not classified as new, in both pollers. -/
theorem claim_c10_tracker_monotone_witness :
    (elemStr "i1" (seenSetOf [("o1", ["i1"])] "o1") = true)
    ∧ (elemStr "i1" (seenSetOf (VariantA.processOrders
        ({ seenItemsMap := [("o1", ["i1"])], db := [] } : VariantA.St)
        [orderLatte, orderMuffin]).1.seenItemsMap "o1") = true)
    ∧ (({ id := "i1", name := "Latte" } : LineItem) ∉ VariantA.newOnesOf
        ({ seenItemsMap := [("o1", ["i1"])], db := [] } : VariantA.St) orderLatte)
    ∧ (elemStr "i1" (seenSetOf (VariantC.processOrders
        ({ seenItemsMap := [("o1", ["i1"])], db := [] } : VariantC.St)
        [orderLatte, orderMuffin]).1.seenItemsMap "o1") = true)
    ∧ (({ id := "i1", name := "Latte" } : LineItem) ∉ VariantC.newOnesOf
        ({ seenItemsMap := [("o1", ["i1"])], db := [] } : VariantC.St) orderLatte) :=
  ⟨by decide,
   ((claim_c10_tracker_monotone ({ seenItemsMap := [("o1", ["i1"])], db := [] } : VariantA.St)
      ({ seenItemsMap := [("o1", ["i1"])], db := [] } : VariantC.St)
      [orderLatte, orderMuffin] [orderLatte, orderMuffin] "o1" "i1" orderLatte orderLatte
      { id := "i1", name := "Latte" } { id := "i1", name := "Latte" }).1.1 (by decide)),
   ((claim_c10_tracker_monotone ({ seenItemsMap := [("o1", ["i1"])], db := [] } : VariantA.St)
      ({ seenItemsMap := [("o1", ["i1"])], db := [] } : VariantC.St)
      [orderLatte, orderMuffin] [orderLatte, orderMuffin] "o1" "i1" orderLatte orderLatte
      { id := "i1", name := "Latte" } { id := "i1", name := "Latte" }).1.2 (by decide)),
   ((claim_c10_tracker_monotone ({ seenItemsMap := [("o1", ["i1"])], db := [] } : VariantA.St)
      ({ seenItemsMap := [("o1", ["i1"])], db := [] } : VariantC.St)
      [orderLatte, orderMuffin] [orderLatte, orderMuffin] "o1" "i1" orderLatte orderLatte
      { id := "i1", name := "Latte" } { id := "i1", name := "Latte" }).2.1 (by decide)),
   ((claim_c10_tracker_monotone ({ seenItemsMap := [("o1", ["i1"])], db := [] } : VariantA.St)
      ({ seenItemsMap := [("o1", ["i1"])], db := [] } : VariantC.St)
      [orderLatte, orderMuffin] [orderLatte, orderMuffin] "o1" "i1" orderLatte orderLatte
      { id := "i1", name := "Latte" } { id := "i1", name := "Latte" }).2.2 (by decide))⟩
